import Mathlib

/-!
Shallow embedding of the bank-statement import pipeline of
`src/app/api/importar-extrato/route.ts` (CSV/OFX statement parsing,
amount/date normalization, payment-method and counterpart classifiers,
format detection).

Conventions of the embedding:
* Byte buffers are modelled as their decoded text (`String`); the route
  decodes CSV bytes as Latin-1 and OFX bytes as UTF-8 before any other
  processing, so every function here receives the decoded text.
* JavaScript numbers are modelled exactly by `JsNum`: a finite value is an
  exact rational (the decimal-to-double rounding is not modelled; it is
  sign- and value-preserving on all inputs appearing in the spec),
  plus `posInf`, `negInf` and `nan`.
* A JavaScript string that may be `undefined` (a missing CSV cell) is
  `Option String`; calling a string method on `undefined` raises
  `JsError.typeError`, and `throw new Error msg` is `JsError.thrown msg`.
* Character-level tables (`\s`, `\p{L}`, NFD decomposition, case mapping)
  are implemented over the ASCII and Latin-1/Latin-Extended-A ranges that
  Brazilian bank statements use; outside those ranges a character is left
  unchanged, mirroring the identity behaviour JavaScript has on the
  unaccented characters of that repertoire.
-/

set_option maxRecDepth 8192

deriving instance DecidableEq for Except

namespace ImportExtrato

/-- JavaScript whitespace (`\s`) on the modelled repertoire: ASCII blanks,
vertical tab, form feed and NBSP. -/
def jsIsSpace (c : Char) : Bool :=
  c = ' ' || c = '\t' || c = '\n' || c = '\r' ||
  c.toNat = 11 || c.toNat = 12 || c.toNat = 0xA0

def isAsciiDigit (c : Char) : Bool :=
  '0' ≤ c && c ≤ '9'

/-- `String.prototype.trim` (also used by `Number`'s leading/trailing
whitespace stripping), on a character list. -/
def jsTrim (l : List Char) : List Char :=
  ((l.dropWhile jsIsSpace).reverse.dropWhile jsIsSpace).reverse

/-- `toLowerCase` on the modelled repertoire (ASCII plus Latin-1
uppercase letters; `×` U+00D7 is not a letter). -/
def jsToLower (c : Char) : Char :=
  if 'A' ≤ c && c ≤ 'Z' then Char.ofNat (c.toNat + 32)
  else if 0xC0 ≤ c.toNat && c.toNat ≤ 0xDE && c.toNat ≠ 0xD7 then
    Char.ofNat (c.toNat + 32)
  else c

/-- `toUpperCase` on the modelled repertoire (`ÿ` uppercases to `Ÿ`
U+0178; the length-changing `ß → SS` expansion is outside the modelled
repertoire). -/
def jsToUpper (c : Char) : Char :=
  if 'a' ≤ c && c ≤ 'z' then Char.ofNat (c.toNat - 32)
  else if 0xE0 ≤ c.toNat && c.toNat ≤ 0xFE && c.toNat ≠ 0xF7 then
    Char.ofNat (c.toNat - 32)
  else if c.toNat = 0xFF then Char.ofNat 0x178
  else c

/-- Substring containment on character lists. -/
def jsIncludesL (pat : List Char) : List Char → Bool
  | [] => pat.isEmpty
  | c :: rest => pat.isPrefixOf (c :: rest) || jsIncludesL pat rest

/-- Substring containment, `String.prototype.includes`. -/
def jsIncludes (s pat : String) : Bool :=
  jsIncludesL pat.toList s.toList

/-- `lastIndexOf` for a single character, `-1` when absent. -/
def jsLastIndexOf (l : List Char) (c : Char) : Int :=
  match (l.reverse).indexOf? c with
  | none => -1
  | some i => (l.length : Int) - 1 - i

/-- Remove every occurrence of a character (`replace(/c/g, "")`). -/
def removeAllChar (l : List Char) (c : Char) : List Char :=
  l.filter (fun d => d ≠ c)

/-- `String.prototype.replace` with a plain one-character pattern:
replaces only the first occurrence. -/
def replaceFirstChar (l : List Char) (c tgt : Char) : List Char :=
  match l with
  | [] => []
  | d :: rest => if d = c then tgt :: rest else d :: replaceFirstChar rest c tgt

/-- A JavaScript number: exact finite rational, infinities, or NaN. -/
inductive JsNum where
  | finite (q : ℚ)
  | posInf
  | negInf
  | nan
  deriving DecidableEq

/-- Numeric value of a digit string, most significant first. -/
def digitsVal (l : List Char) : Nat :=
  l.foldl (fun a c => a * 10 + (c.toNat - '0'.toNat)) 0

def isHexDigit (c : Char) : Bool :=
  isAsciiDigit c || ('a' ≤ c && c ≤ 'f') || ('A' ≤ c && c ≤ 'F')

def hexDigitVal (c : Char) : Nat :=
  if isAsciiDigit c then c.toNat - '0'.toNat
  else if 'a' ≤ c && c ≤ 'f' then c.toNat - 'a'.toNat + 10
  else c.toNat - 'A'.toNat + 10

def hexVal (l : List Char) : Nat :=
  l.foldl (fun a c => a * 16 + hexDigitVal c) 0

def binVal (l : List Char) : Nat :=
  l.foldl (fun a c => a * 2 + (c.toNat - '0'.toNat)) 0

def octVal (l : List Char) : Nat :=
  l.foldl (fun a c => a * 8 + (c.toNat - '0'.toNat)) 0

/-- Decimal literal part of `Number(...)`: digits, optional fraction,
optional exponent; the sign was stripped by the caller.  The value is
assembled as a single exact fraction of integers. -/
def jsDecimal (neg : Bool) (l : List Char) : JsNum :=
  let intDigits := l.takeWhile isAsciiDigit
  let rest1 := l.drop intDigits.length
  let fracDigits :=
    match rest1 with
    | '.' :: r => r.takeWhile isAsciiDigit
    | _ => []
  let rest2 :=
    match rest1 with
    | '.' :: r => r.drop fracDigits.length
    | r => r
  if intDigits.isEmpty && fracDigits.isEmpty then JsNum.nan
  else
    let mag : Int := digitsVal intDigits * 10 ^ fracDigits.length + digitsVal fracDigits
    let num : Int := if neg then -mag else mag
    let den : Nat := 10 ^ fracDigits.length
    match rest2 with
    | [] => JsNum.finite (Rat.divInt num den)
    | 'e' :: es => jsExponent num den es
    | 'E' :: es => jsExponent num den es
    | _ => JsNum.nan
where
  jsExponent (num : Int) (den : Nat) (es : List Char) : JsNum :=
    let (eneg, ds) :=
      match es with
      | '+' :: r => (false, r)
      | '-' :: r => (true, r)
      | r => (false, r)
    if ds.isEmpty || !(ds.all isAsciiDigit) then JsNum.nan
    else
      let e := digitsVal ds
      if eneg then JsNum.finite (Rat.divInt num (den * 10 ^ e))
      else JsNum.finite (Rat.divInt (num * 10 ^ e) den)

/-- `Number(string)`: trims whitespace, empty is `0`, recognises the
hex/octal/binary prefixes, signed decimal literals and `Infinity`;
anything else is NaN. -/
def jsNumber (s : String) : JsNum :=
  let t := jsTrim s.toList
  if t.isEmpty then JsNum.finite 0
  else
    match t with
    | '0' :: 'x' :: r => jsRadix 16 isHexDigit hexVal r
    | '0' :: 'X' :: r => jsRadix 16 isHexDigit hexVal r
    | '0' :: 'b' :: r => jsRadix 2 (fun c => c = '0' || c = '1') binVal r
    | '0' :: 'B' :: r => jsRadix 2 (fun c => c = '0' || c = '1') binVal r
    | '0' :: 'o' :: r => jsRadix 8 (fun c => '0' ≤ c && c ≤ '7') octVal r
    | '0' :: 'O' :: r => jsRadix 8 (fun c => '0' ≤ c && c ≤ '7') octVal r
    | _ =>
      let (neg, u) : Bool × List Char :=
        match t with
        | '+' :: r => (false, r)
        | '-' :: r => (true, r)
        | r => (false, r)
      if u = "Infinity".toList then
        if neg then JsNum.negInf else JsNum.posInf
      else jsDecimal neg u
where
  jsRadix (_base : Nat) (good : Char → Bool) (value : List Char → Nat)
      (r : List Char) : JsNum :=
    if r.isEmpty || !(r.all good) then JsNum.nan
    else JsNum.finite (Rat.divInt (value r) 1)

/-- `value.replace(/\s/g, "")`, the first step of `normalizeAmount`. -/
def stripWhitespaceAll (value : String) : List Char :=
  value.toList.filter (fun c => !jsIsSpace c)

/-- `normalizeAmount` from the route: strip whitespace, disambiguate the
decimal separator from the thousands separator, then `Number(...)`. -/
def normalizeAmount (value : String) : JsNum :=
  let trimmed := stripWhitespaceAll value
  let hasComma := trimmed.contains ','
  let hasDot := trimmed.contains '.'
  let sanitized :=
    if hasComma && hasDot then
      if jsLastIndexOf trimmed ',' > jsLastIndexOf trimmed '.' then
        replaceFirstChar (removeAllChar trimmed '.') ',' '.'
      else
        removeAllChar trimmed ','
    else if hasComma then
      replaceFirstChar (removeAllChar trimmed '.') ',' '.'
    else
      removeAllChar trimmed ','
  jsNumber (String.mk sanitized)

/-- `String.prototype.trim`. -/
def jsTrimStr (s : String) : String :=
  String.mk (jsTrim s.toList)

/-- `startsWith` via character lists (kernel-reducible). -/
def startsWithStr (s pre : String) : Bool :=
  pre.toList.isPrefixOf s.toList

/-- JavaScript `split` with a non-empty plain-string separator:
non-overlapping leftmost occurrences, keeping empty fields.  Structural
recursion on a fuel argument so that the kernel can evaluate it; each
step strictly shortens the list, so `l.length` fuel is always enough. -/
def jsSplitF (sep : List Char) : Nat → List Char → List (List Char)
  | _, [] => [[]]
  | 0, l => [l]
  | fuel + 1, c :: rest =>
    if sep ≠ [] && sep.isPrefixOf (c :: rest) then
      [] :: jsSplitF sep fuel ((c :: rest).drop sep.length)
    else
      match jsSplitF sep fuel rest with
      | [] => [[c]]
      | p :: t => (c :: p) :: t

def jsSplit (sep l : List Char) : List (List Char) :=
  jsSplitF sep l.length l

/-- NFD decomposition on the Latin-1 repertoire used by Brazilian bank
descriptions; characters without a decomposition are unchanged. -/
def nfdDecompose (c : Char) : List Char :=
  let grave := Char.ofNat 0x300
  let acute := Char.ofNat 0x301
  let circ := Char.ofNat 0x302
  let tilde := Char.ofNat 0x303
  let diaer := Char.ofNat 0x308
  let ring := Char.ofNat 0x30A
  let cedil := Char.ofNat 0x327
  match c with
  | 'À' => ['A', grave] | 'Á' => ['A', acute] | 'Â' => ['A', circ]
  | 'Ã' => ['A', tilde] | 'Ä' => ['A', diaer] | 'Å' => ['A', ring]
  | 'Ç' => ['C', cedil]
  | 'È' => ['E', grave] | 'É' => ['E', acute] | 'Ê' => ['E', circ] | 'Ë' => ['E', diaer]
  | 'Ì' => ['I', grave] | 'Í' => ['I', acute] | 'Î' => ['I', circ] | 'Ï' => ['I', diaer]
  | 'Ñ' => ['N', tilde]
  | 'Ò' => ['O', grave] | 'Ó' => ['O', acute] | 'Ô' => ['O', circ]
  | 'Õ' => ['O', tilde] | 'Ö' => ['O', diaer]
  | 'Ù' => ['U', grave] | 'Ú' => ['U', acute] | 'Û' => ['U', circ] | 'Ü' => ['U', diaer]
  | 'Ý' => ['Y', acute]
  | 'à' => ['a', grave] | 'á' => ['a', acute] | 'â' => ['a', circ]
  | 'ã' => ['a', tilde] | 'ä' => ['a', diaer] | 'å' => ['a', ring]
  | 'ç' => ['c', cedil]
  | 'è' => ['e', grave] | 'é' => ['e', acute] | 'ê' => ['e', circ] | 'ë' => ['e', diaer]
  | 'ì' => ['i', grave] | 'í' => ['i', acute] | 'î' => ['i', circ] | 'ï' => ['i', diaer]
  | 'ñ' => ['n', tilde]
  | 'ò' => ['o', grave] | 'ó' => ['o', acute] | 'ô' => ['o', circ]
  | 'õ' => ['o', tilde] | 'ö' => ['o', diaer]
  | 'ù' => ['u', grave] | 'ú' => ['u', acute] | 'û' => ['u', circ] | 'ü' => ['u', diaer]
  | 'ý' => ['y', acute] | 'ÿ' => ['y', diaer]
  | _ => [c]

/-- A combining mark, the `[̀-ͯ]` class of `normalizeText`. -/
def isCombiningMark (c : Char) : Bool :=
  0x300 ≤ c.toNat && c.toNat ≤ 0x36F

/-- `normalizeText` from the route: NFD, strip combining marks, then
lowercase. -/
def normalizeText (value : String) : String :=
  String.mk
    (((value.toList.flatMap nfdDecompose).filter (fun c => !isCombiningMark c)).map
      jsToLower)

/-- `normalizeWhitespaces` helper: collapse every `\s+` run to one space.
The `inSpace` flag records whether the previous character was whitespace,
so a run contributes a single space. -/
def collapseWsAux (inSpace : Bool) : List Char → List Char
  | [] => []
  | c :: rest =>
    if jsIsSpace c then
      if inSpace then collapseWsAux true rest
      else ' ' :: collapseWsAux true rest
    else c :: collapseWsAux false rest

def collapseWs (l : List Char) : List Char :=
  collapseWsAux false l

/-- `normalizeWhitespaces` from the route: `replace(/\s+/g, " ").trim()`. -/
def normalizeWhitespaces (value : String) : String :=
  String.mk (jsTrim (collapseWs value.toList))

/-- `stripObfuscation` from the route: drop every `•` and `*`, trim. -/
def stripObfuscation (value : String) : String :=
  String.mk (jsTrim (value.toList.filter (fun c => c ≠ '•' && c ≠ '*')))

/-- The `[a-zA-ZÀ-ÿ]` letter test of `extractCounterpart` (the exact
regex class: note it also spans U+00D7 and U+00F7). -/
def hasLatinLetter (l : List Char) : Bool :=
  l.any (fun c =>
    ('a' ≤ c && c ≤ 'z') || ('A' ≤ c && c ≤ 'Z') ||
    (0xC0 ≤ c.toNat && c.toNat ≤ 0xFF))

/-- Anchored form of the `\d{3}\.\d{3}` masked-number test. -/
def maskedAt : List Char → Bool
  | d1 :: d2 :: d3 :: p :: d4 :: d5 :: d6 :: _ =>
    isAsciiDigit d1 && isAsciiDigit d2 && isAsciiDigit d3 && p = '.' &&
    isAsciiDigit d4 && isAsciiDigit d5 && isAsciiDigit d6
  | _ => false

/-- The `\d{3}\.\d{3}` masked document/account-number test. -/
def hasMaskedNumber (l : List Char) : Bool :=
  match l with
  | [] => false
  | _ :: rest => maskedAt l || hasMaskedNumber rest

/-- The `\p{L}` class of the final counterpart cleanup, on the modelled
Latin repertoire (ASCII letters, Latin-1 letters, Latin Extended-A). -/
def isLetterLike (c : Char) : Bool :=
  c.isAlpha ||
  (0xC0 ≤ c.toNat && c.toNat ≤ 0xFF && c.toNat ≠ 0xD7 && c.toNat ≠ 0xF7) ||
  (0x100 ≤ c.toNat && c.toNat ≤ 0x17F)

/-- Characters kept by `replace(/[^\p{L}\s'.-]/gu, "")`. -/
def keepCounterpartChar (c : Char) : Bool :=
  isLetterLike c || jsIsSpace c || c = '\'' || c = '.' || c = '-'

/-- `stripObfuscation(part).replace(/[^\p{L}\s'.-]/gu, "").trim()`, the
cleanup applied to a selected counterpart part. -/
def cleanSelected (part : String) : String :=
  String.mk (jsTrim ((stripObfuscation part).toList.filter keepCounterpartChar))

/-- The non-empty trimmed parts of the `" - "` split. -/
def counterpartParts (cleaned : String) : List String :=
  ((jsSplit " - ".toList cleaned.toList).map
    (fun p => jsTrimStr (String.mk p))).filter (fun p => p ≠ "")

/-- The `parts.find((part, index) => ...)` predicate: a part at index
above 0 that contains a letter and is not a masked number. -/
def counterpartQualifies (ip : Nat × String) : Bool :=
  decide (0 < ip.1) && hasLatinLetter ip.2.toList && !hasMaskedNumber ip.2.toList

/-- `extractCounterpart` from the route. -/
def extractCounterpart (description : String) : String :=
  let cleaned := stripObfuscation (normalizeWhitespaces description)
  let parts := counterpartParts cleaned
  let candidate := (parts.enum.find? counterpartQualifies).map Prod.snd
  match candidate with
  | some part => cleanSelected part
  | none =>
    if 1 < parts.length then cleanSelected (parts[1]?.getD "")
    else
      let sliced := String.mk (cleaned.toList.take 80)
      if sliced = "" then "Nao identificado" else sliced

inductive PaymentMethod where
  | PIX | DINHEIRO | BOLETO | CARTAO_CREDITO | CARTAO_DEBITO | CHEQUE | OUTROS
  deriving DecidableEq

/-- `inferPaymentMethod` from the route. -/
def inferPaymentMethod (description : String) : PaymentMethod :=
  let normalized := normalizeText description
  if jsIncludes normalized "pix" then .PIX
  else if jsIncludes normalized "boleto" then .BOLETO
  else if jsIncludes normalized "credito" then .CARTAO_CREDITO
  else if jsIncludes normalized "debito" then .CARTAO_DEBITO
  else if jsIncludes normalized "cheque" then .CHEQUE
  else if jsIncludes normalized "dinheiro" || jsIncludes normalized "saque" then
    .DINHEIRO
  else .OUTROS

inductive MovementCategory where
  | RECEITA | COMPRA | DESPESA | RETIRADA
  deriving DecidableEq

/-- `amount >= 0` in JavaScript: false on NaN, true on `+Infinity`
(and on `-0`, which the exact-rational model identifies with `0`). -/
def jsGe0 : JsNum → Bool
  | .finite q => decide (0 ≤ q)
  | .posInf => true
  | .negInf => false
  | .nan => false

/-- `amount < 0` in JavaScript: false on NaN. -/
def jsLt0 : JsNum → Bool
  | .finite q => decide (q < 0)
  | .posInf => false
  | .negInf => true
  | .nan => false

/-- The format-specific `raw` debug payload of a transaction. -/
inductive RawInfo where
  | csvRaw (originalLineNumber : Nat) (date : String) (amountRaw : String)
      (description : String) (reference : Option String)
  | ofxRaw (posted : String) (amountRaw : String) (memo : String)
      (fitid : String) (trnType : Option String)
  deriving DecidableEq

/-- `ParsedTransaction` of the route.  `reference` is `Option String`
because the CSV path stores `columns[idIdx]` without touching it, so a
row shorter than `idIdx` stores JavaScript `undefined` there (`none`). -/
structure ParsedTransaction where
  date : String
  amount : JsNum
  description : String
  reference : Option String
  counterpart : String
  productService : String
  paymentMethod : PaymentMethod
  movement : MovementCategory
  raw : RawInfo
  deriving DecidableEq

structure OfxAccount where
  bankId : Option String
  branchId : Option String
  accountId : Option String
  type : Option String
  deriving DecidableEq

inductive ExtractFormat where
  | csv | ofx
  deriving DecidableEq

structure ParsedExtract where
  filename : String
  format : ExtractFormat
  currency : Option String
  account : Option OfxAccount
  transactions : List ParsedTransaction
  deriving DecidableEq

/-- A JavaScript exception: an explicit `throw new Error(msg)` or a
runtime `TypeError` from calling a method on `undefined`. -/
inductive JsError where
  | thrown (msg : String)
  | typeError
  deriving DecidableEq

/-- `Array.prototype.map` with a body that can throw: the first
exception aborts the whole map. -/
def mapExcept {α β : Type} (f : α → Except JsError β) :
    List α → Except JsError (List β)
  | [] => .ok []
  | a :: rest =>
    match f a with
    | .error e => .error e
    | .ok b =>
      match mapExcept f rest with
      | .error e => .error e
      | .ok bs => .ok (b :: bs)

/-- CSV line splitting: `text.split(/\r?\n/)`, via `\n` with one
trailing `\r` dropped per line. -/
def splitLinesJs (text : String) : List String :=
  (jsSplit ['\n'] text.toList).map (fun l =>
    if l.getLast? = some '\r' then String.mk l.dropLast else String.mk l)

/-- Trimmed non-empty lines of the CSV text. -/
def csvLines (text : String) : List String :=
  ((splitLinesJs text).map jsTrimStr).filter (fun line => line ≠ "")

/-- Comma-split, trimmed, lowercased header tokens. -/
def csvHeader (line : String) : List String :=
  (jsSplit [','] line.toList).map (fun t => String.mk ((jsTrim t).map jsToLower))

/-- Comma-split trimmed cells of a data row. -/
def csvColumns (line : String) : List String :=
  (jsSplit [','] line.toList).map (fun c => String.mk (jsTrim c))

/-- The string interpolation of a possibly-`undefined` value. -/
def jsInterp (v : Option String) : String :=
  v.getD "undefined"

/-- `DD/MM/YYYY → YYYY-MM-DD` reordering of the CSV date cell: split on
`/` and interpolate the pieces, with no validation (a missing piece
interpolates as the literal `undefined`). -/
def csvIsoDate (rawDate : String) : String :=
  let parts := (jsSplit ['/'] rawDate.toList).map String.mk
  jsInterp parts[2]? ++ "-" ++ jsInterp parts[1]? ++ "-" ++
    jsInterp parts[0]?

/-- The row→transaction body of `parseCsv`.  `index` is the 0-based
position among the data rows.  Accessing a missing (undefined) cell with
a string method raises `typeError`, in the evaluation order of the
source: date first, then amount, then description; the reference cell is
stored without any method call, so it may stay `none`. -/
def mkCsvTransaction (dateIdx valueIdx idIdx descriptionIdx index : Nat)
    (line : String) : Except JsError ParsedTransaction :=
  let columns := csvColumns line
  match columns[dateIdx]? with
  | none => .error .typeError
  | some rawDate =>
    let isoDate := csvIsoDate rawDate
    match columns[valueIdx]? with
    | none => .error .typeError
    | some amountRaw =>
      let amount := normalizeAmount amountRaw
      match columns[descriptionIdx]? with
      | none => .error .typeError
      | some descRaw =>
        let description := normalizeWhitespaces descRaw
        let counterpart := extractCounterpart description
        let paymentMethod := inferPaymentMethod description
        let reference := columns[idIdx]?
        .ok {
          date := isoDate
          amount := amount
          description := description
          reference := reference
          counterpart := counterpart
          productService := "Nao identificado (NI)"
          paymentMethod := paymentMethod
          movement := if jsGe0 amount then .RECEITA else .DESPESA
          raw := .csvRaw (index + 2) rawDate amountRaw description reference }

/-- The `lines.slice(1).map(...)` tail of `parseCsv` together with the
envelope construction, once the four column indices are known. -/
def parseCsvBody (di vi ii pi : Nat) (lines : List String)
    (filename : String) : Except JsError ParsedExtract :=
  match mapExcept
      (fun (p : Nat × String) => mkCsvTransaction di vi ii pi p.1 p.2)
      (lines.drop 1).enum with
  | .error e => .error e
  | .ok transactions =>
    .ok {
      filename := filename
      format := .csv
      currency := some "BRL"
      account := none
      transactions := transactions }

/-- `parseCsv` from the route (the byte buffer already decoded as
Latin-1). -/
def parseCsv (text filename : String) : Except JsError ParsedExtract :=
  let lines := csvLines text
  if lines.length < 2 then
    .error (.thrown "Arquivo CSV sem conteudo suficiente.")
  else
    let header := csvHeader (lines[0]?.getD "")
    let dateIdx := header.findIdx? (fun h => h = "data")
    let valueIdx := header.findIdx? (fun h => h = "valor")
    let idIdx := header.findIdx? (fun h => h = "identificador")
    let descriptionIdx := header.findIdx? (fun h => startsWithStr h "descri")
    match dateIdx, valueIdx, idIdx, descriptionIdx with
    | some di, some vi, some ii, some pi => parseCsvBody di vi ii pi lines filename
    | _, _, _, _ =>
      .error (.thrown "Cabecalho do CSV invalido ou fora do padrao esperado.")

/-- Case-insensitive prefix test (the `i` regex flag, ASCII folding). -/
def startsWithCI : List Char → List Char → Bool
  | [], _ => true
  | _ :: _, [] => false
  | p :: ps, h :: hs => (jsToLower p = jsToLower h) && startsWithCI ps hs

/-- Index of the first case-insensitive occurrence of `pat` in `hay`. -/
def findSubstrCI (hay pat : List Char) : Option Nat :=
  if startsWithCI pat hay then some 0
  else
    match hay with
    | [] => none
    | _ :: t => (findSubstrCI t pat).map (· + 1)

/-- The leftmost match of `/OPEN([\s\S]*?)CLOSE/i`: first occurrence of
the opening tag, then the nearest closing tag after it. -/
def matchBetweenCI (text openTag closeTag : List Char) : Option (List Char) :=
  match findSubstrCI text openTag with
  | none => none
  | some i =>
    let after := text.drop (i + openTag.length)
    match findSubstrCI after closeTag with
    | none => none
    | some j => some (after.take j)

/-- One step of the global `/<STMTTRN>([\s\S]*?)<\/STMTTRN>/gi` scan:
the next block and the remainder after its closing tag. -/
def findTagPair (l openTag closeTag : List Char) :
    Option (List Char × List Char) :=
  match findSubstrCI l openTag with
  | none => none
  | some i =>
    let after := l.drop (i + openTag.length)
    match findSubstrCI after closeTag with
    | none => none
    | some j => some (after.take j, after.drop (j + closeTag.length))

/-- All `<STMTTRN>...</STMTTRN>` blocks, in document order.  Fuel-based
structural recursion: every step consumes at least the 9 characters of
the opening tag, so `l.length + 1` fuel is always enough. -/
def extractBlocksF : Nat → List Char → List (List Char)
  | 0, _ => []
  | fuel + 1, l =>
    match findTagPair l "<STMTTRN>".toList "</STMTTRN>".toList with
    | none => []
    | some (block, rest) => block :: extractBlocksF fuel rest

def extractBlocks (l : List Char) : List (List Char) :=
  extractBlocksF (l.length + 1) l

/-- `extractTag` from the route: the regex `<TAG>([^<]+)` with the `i`
flag — the first position where the tag is followed by at least one
non-`<` character; the captured run is trimmed. -/
def extractTagL (text pat : List Char) : Option String :=
  match text with
  | [] => none
  | _ :: rest =>
    if startsWithCI pat text then
      let run := (text.drop pat.length).takeWhile (fun c => c ≠ '<')
      if run.isEmpty then extractTagL rest pat
      else some (String.mk (jsTrim run))
    else extractTagL rest pat

def extractTag (text tag : String) : Option String :=
  extractTagL text.toList ('<' :: tag.toList ++ ['>'])

/-- `DTPOSTED` → ISO date: strip non-digits; with at least 8 digits the
first 8 are `YYYYMMDD`, otherwise the date is empty. -/
def ofxIsoDate (posted : String) : String :=
  let digits := posted.toList.filter isAsciiDigit
  if 8 ≤ digits.length then
    String.mk (digits.take 4 ++ '-' :: (digits.drop 4).take 2 ++
      '-' :: (digits.drop 6).take 2)
  else ""

/-- The block→transaction body of `parseOfx`. -/
def mkOfxTransaction (block : List Char) : ParsedTransaction :=
  let posted := (extractTagL block "<DTPOSTED>".toList).getD ""
  let amountRaw := (extractTagL block "<TRNAMT>".toList).getD "0"
  let memo := (extractTagL block "<MEMO>".toList).getD ""
  let fitid := (extractTagL block "<FITID>".toList).getD ""
  let dateIso := ofxIsoDate posted
  let amount := normalizeAmount amountRaw
  let description := normalizeWhitespaces memo
  {
    date := dateIso
    amount := amount
    description := description
    reference := some fitid
    counterpart := extractCounterpart description
    productService := "Nao identificado (NI)"
    paymentMethod := inferPaymentMethod description
    movement := if jsGe0 amount then .RECEITA else .DESPESA
    raw := .ofxRaw posted amountRaw description fitid
      (extractTagL block "<TRNTYPE>".toList) }

/-- The `/<BANKTRANLIST>([\s\S]*?)<\/BANKTRANLIST>/i` match of
`parseOfx`. -/
def ofxTranSection (text : String) : Option (List Char) :=
  matchBetweenCI text.toList "<BANKTRANLIST>".toList "</BANKTRANLIST>".toList

/-- `parseOfx` from the route (the byte buffer already decoded as
UTF-8). -/
def parseOfx (text filename : String) : Except JsError ParsedExtract :=
  let accountSection :=
    matchBetweenCI text.toList "<BANKACCTFROM>".toList "</BANKACCTFROM>".toList
  match ofxTranSection text with
  | none => .error (.thrown "Arquivo OFX invalido: transacoes nao encontradas.")
  | some inner =>
    let account := accountSection.map (fun sec =>
      {
        bankId := extractTagL sec "<BANKID>".toList
        branchId := extractTagL sec "<BRANCHID>".toList
        accountId := extractTagL sec "<ACCTID>".toList
        type := extractTagL sec "<ACCTTYPE>".toList : OfxAccount })
    let currency := (extractTag text "CURDEF").getD "BRL"
    let transactions := (extractBlocks inner).map mkOfxTransaction
    if transactions.isEmpty then
      .error (.thrown "Nenhuma transacao encontrada no arquivo OFX.")
    else
      .ok {
        filename := filename
        format := .ofx
        currency := some currency
        account := account
        transactions := transactions }

inductive FileFormat where
  | csv | ofx | pdf
  deriving DecidableEq

/-- `normalizeExtension` from the route: from the last `.` (inclusive)
to the end, lowercased; empty when there is no dot. -/
def normalizeExtension (name : String) : String :=
  match jsLastIndexOf name.toList '.' with
  | .negSucc _ => ""
  | .ofNat idx => String.mk ((name.toList.drop idx).map jsToLower)

/-- `detectFormat` from the route; `none` is the unsupported case.  The
byte-sniff reads the first 32 bytes, modelled as the first 32 characters
of the decoded content. -/
def detectFormat (name contentType content : String) : Option FileFormat :=
  let extension := normalizeExtension name
  if extension = ".csv" then some .csv
  else if extension = ".ofx" then some .ofx
  else
    let ct := String.mk (contentType.toList.map jsToLower)
    if jsIncludes ct "csv" then some .csv
    else if jsIncludes ct "ofx" then some .ofx
    else if jsIncludes ct "pdf" || extension = ".pdf" then some .pdf
    else
      let snippet := content.toList.take 32
      if "OFXHEADER".toList.isPrefixOf ((snippet.dropWhile jsIsSpace).map jsToUpper)
      then some .ofx
      else if snippet.contains ',' &&
          jsIncludesL "data".toList (snippet.map jsToLower) then some .csv
      else none

/-- The error outcomes of the import route around the parsers. -/
inductive ImportError where
  | unsupportedFormat
  | pdfNotAvailable
  | processingFailure (e : JsError)
  deriving DecidableEq

/-- The parsing core of the route handler: detect the format, dispatch
to the matching parser, map a thrown parse error to the generic
processing failure. -/
def importExtract (name contentType content : String) :
    Except ImportError ParsedExtract :=
  match detectFormat name contentType content with
  | none => .error .unsupportedFormat
  | some .pdf => .error .pdfNotAvailable
  | some .csv => (parseCsv content name).mapError .processingFailure
  | some .ofx => (parseOfx content name).mapError .processingFailure

/-- A string of the exact shape `YYYY-MM-DD` with ASCII digits. -/
def isIsoDate (s : String) : Bool :=
  match s.toList with
  | [y1, y2, y3, y4, s1, m1, m2, s2, d1, d2] =>
    isAsciiDigit y1 && isAsciiDigit y2 && isAsciiDigit y3 && isAsciiDigit y4 &&
    s1 = '-' && isAsciiDigit m1 && isAsciiDigit m2 && s2 = '-' &&
    isAsciiDigit d1 && isAsciiDigit d2
  | _ => false

/-- A CSV data row has cells at the date, amount and description
indices (the three that `parseCsv` calls string methods on). -/
def requiredCells (di vi pi : Nat) (line : String) : Prop :=
  ((csvColumns line)[di]?).isSome = true ∧
  ((csvColumns line)[vi]?).isSome = true ∧
  ((csvColumns line)[pi]?).isSome = true

instance (di vi pi : Nat) (line : String) :
    Decidable (requiredCells di vi pi line) := by
  unfold requiredCells; infer_instance

/-- Concrete test vector: a one-row CSV whose amount is negative. -/
def sampleCsvText : String :=
  "data,valor,identificador,descricao\n05/03/2024,-10,id,X"

/-- The transaction `parseCsv` produces for `sampleCsvText`. -/
def sampleCsvTx : ParsedTransaction := {
  date := "2024-03-05"
  amount := JsNum.finite (Rat.divInt (-10) 1)
  description := "X"
  reference := some "id"
  counterpart := "X"
  productService := "Nao identificado (NI)"
  paymentMethod := .OUTROS
  movement := .DESPESA
  raw := .csvRaw 2 "05/03/2024" "-10" "X" (some "id") }

/-- The extract `parseCsv` produces for `sampleCsvText`. -/
def sampleCsvExtract : ParsedExtract := {
  filename := "f"
  format := .csv
  currency := some "BRL"
  account := none
  transactions := [sampleCsvTx] }

/-- Concrete test vector: a one-transaction OFX document. -/
def sampleOfxText : String :=
  "<BANKTRANLIST><STMTTRN><DTPOSTED>20240115</DTPOSTED><TRNAMT>-45.90</TRNAMT><MEMO>BOLETO X</MEMO><FITID>1</FITID></STMTTRN></BANKTRANLIST>"

/-- The transaction `parseOfx` produces for `sampleOfxText`. -/
def sampleOfxTx : ParsedTransaction := {
  date := "2024-01-15"
  amount := JsNum.finite (Rat.divInt (-4590) 100)
  description := "BOLETO X"
  reference := some "1"
  counterpart := "BOLETO X"
  productService := "Nao identificado (NI)"
  paymentMethod := .BOLETO
  movement := .DESPESA
  raw := .ofxRaw "20240115" "-45.90" "BOLETO X" "1" none }

/-- The extract `parseOfx` produces for `sampleOfxText`. -/
def sampleOfxExtract : ParsedExtract := {
  filename := "f.ofx"
  format := .ofx
  currency := some "BRL"
  account := none
  transactions := [sampleOfxTx] }

/-! ## Claims -/

section Helpers

/-- A list with at least eight elements splits into eight head elements
and a tail. -/
theorem list_eight_split {l : List Char} (h : 8 ≤ l.length) :
    ∃ a b c d e f g k t, l = a :: b :: c :: d :: e :: f :: g :: k :: t :=
  match l, h with
  | _ :: _ :: _ :: _ :: _ :: _ :: _ :: _ :: t, _ =>
    ⟨_, _, _, _, _, _, _, _, t, rfl⟩

theorem take_drop_eight (a b c d e f g k : Char) (t : List Char) :
    (a :: b :: c :: d :: e :: f :: g :: k :: t).take 4 = [a, b, c, d] ∧
    ((a :: b :: c :: d :: e :: f :: g :: k :: t).drop 4).take 2 = [e, f] ∧
    ((a :: b :: c :: d :: e :: f :: g :: k :: t).drop 6).take 2 = [g, k] :=
  ⟨rfl, rfl, rfl⟩

/-- An OFX posted date is reformatted to ISO shape, or empty when fewer
than 8 digits survive. -/
theorem ofxIsoDate_shape (posted : String) :
    isIsoDate (ofxIsoDate posted) = true ∨ ofxIsoDate posted = "" := by
  by_cases h8 : 8 ≤ (posted.toList.filter isAsciiDigit).length
  · left
    obtain ⟨a, b, c, d, e, f, g, k, t, heq⟩ := list_eight_split h8
    have hall : ∀ x ∈ posted.toList.filter isAsciiDigit, isAsciiDigit x = true :=
      fun x hx => (List.mem_filter.mp hx).2
    have ha := hall a (by rw [heq]; simp)
    have hb := hall b (by rw [heq]; simp)
    have hc := hall c (by rw [heq]; simp)
    have hd := hall d (by rw [heq]; simp)
    have he := hall e (by rw [heq]; simp)
    have hf := hall f (by rw [heq]; simp)
    have hg := hall g (by rw [heq]; simp)
    have hk := hall k (by rw [heq]; simp)
    have hrw : ofxIsoDate posted =
        String.mk [a, b, c, d, '-', e, f, '-', g, k] := by
      unfold ofxIsoDate
      rw [heq, if_pos (heq ▸ h8)]
      rfl
    rw [hrw]
    simp [isIsoDate, ha, hb, hc, hd, he, hf, hg, hk]
  · right
    unfold ofxIsoDate
    rw [if_neg h8]

theorem mkOfxTransaction_movement (block : List Char) :
    (mkOfxTransaction block).movement =
      if jsGe0 (mkOfxTransaction block).amount then MovementCategory.RECEITA
      else MovementCategory.DESPESA := by
  simp [mkOfxTransaction]

theorem mkOfxTransaction_date (block : List Char) :
    (mkOfxTransaction block).date =
      ofxIsoDate ((extractTagL block "<DTPOSTED>".toList).getD "") := by
  simp [mkOfxTransaction]

/-- Inversion of a successful `parseOfx`: the transaction list is the
block-wise map over the `BANKTRANLIST` section. -/
theorem parseOfx_ok_shape {text fn : String} {r : ParsedExtract}
    (h : parseOfx text fn = .ok r) :
    ∃ inner, ofxTranSection text = some inner ∧
      r.transactions = (extractBlocks inner).map mkOfxTransaction := by
  cases hsec : ofxTranSection text with
  | none => simp [parseOfx, hsec] at h
  | some inner =>
    simp only [parseOfx, hsec] at h
    refine ⟨inner, rfl, ?_⟩
    split at h
    · cases h
    · injection h with h
      rw [← h]

/-- Inversion of a successful row conversion in `parseCsv`. -/
theorem mkCsvTransaction_ok {di vi ii pi idx : Nat} {line : String}
    {tx : ParsedTransaction}
    (h : mkCsvTransaction di vi ii pi idx line = .ok tx) :
    ∃ rawDate amountRaw descRaw,
      (csvColumns line)[di]? = some rawDate ∧
      (csvColumns line)[vi]? = some amountRaw ∧
      (csvColumns line)[pi]? = some descRaw ∧
      tx.date = csvIsoDate rawDate ∧
      tx.amount = normalizeAmount amountRaw ∧
      tx.movement =
        (if jsGe0 (normalizeAmount amountRaw) then MovementCategory.RECEITA
          else MovementCategory.DESPESA) := by
  cases hd : (csvColumns line)[di]? with
  | none => simp [mkCsvTransaction, hd] at h
  | some rawDate =>
    cases hv : (csvColumns line)[vi]? with
    | none => simp [mkCsvTransaction, hd, hv] at h
    | some amountRaw =>
      cases hp : (csvColumns line)[pi]? with
      | none => simp [mkCsvTransaction, hd, hv, hp] at h
      | some descRaw =>
        simp only [mkCsvTransaction, hd, hv, hp] at h
        injection h with h
        refine ⟨rawDate, amountRaw, descRaw, rfl, rfl, rfl, ?_, ?_, ?_⟩ <;>
          rw [← h]

/-- A row converts successfully exactly when the three required cells
are present. -/
theorem mkCsvTransaction_ok_iff (di vi ii pi idx : Nat) (line : String) :
    (∃ tx, mkCsvTransaction di vi ii pi idx line = .ok tx) ↔
      requiredCells di vi pi line := by
  cases hd : (csvColumns line)[di]? <;>
    cases hv : (csvColumns line)[vi]? <;>
      cases hp : (csvColumns line)[pi]? <;>
        simp [mkCsvTransaction, requiredCells, hd, hv, hp]

/-- A row conversion only ever fails with `typeError`, exactly when a
required cell is missing. -/
theorem mkCsvTransaction_error_iff (di vi ii pi idx : Nat) (line : String)
    (e : JsError) :
    mkCsvTransaction di vi ii pi idx line = .error e ↔
      (e = .typeError ∧ ¬requiredCells di vi pi line) := by
  cases hd : (csvColumns line)[di]? <;>
    cases hv : (csvColumns line)[vi]? <;>
      cases hp : (csvColumns line)[pi]? <;>
        simp [mkCsvTransaction, requiredCells, hd, hv, hp] <;>
          exact eq_comm

/-- Membership in a successful `mapExcept` comes from a successful
element. -/
theorem mapExcept_ok_mem {α β : Type} {f : α → Except JsError β}
    {l : List α} {ys : List β} (h : mapExcept f l = .ok ys) {y : β}
    (hy : y ∈ ys) : ∃ x ∈ l, f x = .ok y := by
  induction l generalizing ys with
  | nil =>
    unfold mapExcept at h
    injection h with h
    subst h
    cases hy
  | cons a t ih =>
    unfold mapExcept at h
    cases hfa : f a with
    | error e => rw [hfa] at h; cases h
    | ok b =>
      rw [hfa] at h
      cases hmt : mapExcept f t with
      | error e => rw [hmt] at h; cases h
      | ok bs =>
        rw [hmt] at h
        injection h with h
        subst h
        rcases List.mem_cons.mp hy with hy | hy
        · exact ⟨a, List.mem_cons_self a t, hy ▸ hfa⟩
        · obtain ⟨x, hx, hfx⟩ := ih hmt hy
          exact ⟨x, List.mem_cons_of_mem a hx, hfx⟩

/-- `mapExcept` over row conversions: success exactly when every
element succeeds, failure only with `typeError` and exactly when some
element fails. -/
theorem mapExcept_characterize {α β : Type} {f : α → Except JsError β}
    (hf : ∀ x, (∃ y, f x = .ok y) ∨ f x = .error JsError.typeError)
    (l : List α) :
    ((∃ ys, mapExcept f l = .ok ys) ↔ ∀ x ∈ l, ∃ y, f x = .ok y) ∧
    (mapExcept f l = .error JsError.typeError ↔
      ∃ x ∈ l, f x = .error JsError.typeError) ∧
    (∀ e, mapExcept f l = .error e → e = JsError.typeError) := by
  induction l with
  | nil =>
    refine ⟨?_, ?_, ?_⟩
    · simp [mapExcept]
    · simp [mapExcept]
    · intro e he; unfold mapExcept at he; cases he
  | cons a t ih =>
    obtain ⟨ih1, ih2, ih3⟩ := ih
    rcases hf a with ⟨b, hb⟩ | herr
    · cases hmt : mapExcept f t with
      | error e =>
        have he := ih3 e hmt
        subst he
        refine ⟨?_, ?_, ?_⟩
        · simp only [mapExcept, hb, hmt]
          constructor
          · rintro ⟨ys, hys⟩; cases hys
          · intro hall
            exact absurd (ih1.mpr fun x hx => hall x (List.mem_cons_of_mem a hx))
              (by simp [hmt])
        · simp only [mapExcept, hb, hmt]
          constructor
          · intro _
            obtain ⟨x, hx, hfx⟩ := ih2.mp hmt
            exact ⟨x, List.mem_cons_of_mem a hx, hfx⟩
          · intro _; trivial
        · intro e he
          simp only [mapExcept, hb, hmt] at he
          injection he with he
          exact ih3 _ (by rw [hmt, he])
      | ok bs =>
        refine ⟨?_, ?_, ?_⟩
        · simp only [mapExcept, hb, hmt]
          constructor
          · intro _
            intro x hx
            rcases List.mem_cons.mp hx with hx | hx
            · exact ⟨b, hx ▸ hb⟩
            · exact ih1.mp ⟨bs, hmt⟩ x hx
          · intro _; exact ⟨b :: bs, rfl⟩
        · simp only [mapExcept, hb, hmt]
          constructor
          · intro h; cases h
          · rintro ⟨x, hx, hfx⟩
            rcases List.mem_cons.mp hx with hx | hx
            · rw [hx, hb] at hfx; cases hfx
            · exact absurd (ih2.mpr ⟨x, hx, hfx⟩) (by simp [hmt])
        · intro e he
          simp only [mapExcept, hb, hmt] at he
          cases he
    · refine ⟨?_, ?_, ?_⟩
      · simp only [mapExcept, herr]
        constructor
        · rintro ⟨ys, hys⟩; cases hys
        · intro hall
          obtain ⟨y, hy⟩ := hall a (List.mem_cons_self a t)
          rw [hy] at herr; cases herr
      · simp only [mapExcept, herr]
        exact ⟨fun _ => ⟨a, List.mem_cons_self a t, herr⟩, fun _ => by trivial⟩
      · intro e he
        simp only [mapExcept, herr] at he
        injection he with he
        exact he.symm

theorem enumFrom_forall_snd {α : Type} (P : α → Prop) :
    ∀ (n : Nat) (l : List α), (∀ p ∈ l.enumFrom n, P p.2) ↔ ∀ x ∈ l, P x := by
  intro n l
  induction l generalizing n with
  | nil => simp
  | cons a t ih =>
    rw [show List.enumFrom n (a :: t) = (n, a) :: List.enumFrom (n + 1) t from
        rfl,
      List.forall_mem_cons, List.forall_mem_cons, ih (n + 1)]

theorem enum_forall_snd {α : Type} (P : α → Prop) (l : List α) :
    (∀ p ∈ l.enum, P p.2) ↔ ∀ x ∈ l, P x :=
  enumFrom_forall_snd P 0 l

theorem enumFrom_exists_snd {α : Type} (P : α → Prop) :
    ∀ (n : Nat) (l : List α), (∃ p ∈ l.enumFrom n, P p.2) ↔ ∃ x ∈ l, P x := by
  intro n l
  induction l generalizing n with
  | nil => simp
  | cons a t ih =>
    rw [show List.enumFrom n (a :: t) = (n, a) :: List.enumFrom (n + 1) t from
        rfl]
    constructor
    · rintro ⟨p, hp, hP⟩
      rcases List.mem_cons.mp hp with rfl | hp
      · exact ⟨a, List.mem_cons_self a t, hP⟩
      · obtain ⟨x, hx, hPx⟩ := (ih (n + 1)).mp ⟨p, hp, hP⟩
        exact ⟨x, List.mem_cons_of_mem a hx, hPx⟩
    · rintro ⟨x, hx, hPx⟩
      rcases List.mem_cons.mp hx with rfl | hx
      · exact ⟨(n, x), List.mem_cons_self _ _, hPx⟩
      · obtain ⟨p, hp, hP⟩ := (ih (n + 1)).mpr ⟨x, hx, hPx⟩
        exact ⟨p, List.mem_cons_of_mem _ hp, hP⟩

theorem enum_exists_snd {α : Type} (P : α → Prop) (l : List α) :
    (∃ p ∈ l.enum, P p.2) ↔ ∃ x ∈ l, P x :=
  enumFrom_exists_snd P 0 l

theorem mkCsvTransaction_typeError_iff (di vi ii pi idx : Nat) (line : String) :
    mkCsvTransaction di vi ii pi idx line = .error JsError.typeError ↔
      ¬requiredCells di vi pi line := by
  simp [mkCsvTransaction_error_iff]

/-- The row conversions satisfy the ok-or-typeError dichotomy. -/
theorem mkCsvTransaction_dichotomy (di vi ii pi : Nat) :
    ∀ p : Nat × String,
      (∃ y, mkCsvTransaction di vi ii pi p.1 p.2 = .ok y) ∨
        mkCsvTransaction di vi ii pi p.1 p.2 = .error JsError.typeError := by
  intro p
  by_cases hreq : requiredCells di vi pi p.2
  · exact Or.inl ((mkCsvTransaction_ok_iff di vi ii pi p.1 p.2).mpr hreq)
  · exact Or.inr ((mkCsvTransaction_error_iff di vi ii pi p.1 p.2 _).mpr ⟨rfl, hreq⟩)

theorem parseCsvBody_ok_exists (di vi ii pi : Nat) (lines : List String)
    (fn : String) :
    (∃ r, parseCsvBody di vi ii pi lines fn = .ok r) ↔
      (∃ ys, mapExcept
        (fun (p : Nat × String) => mkCsvTransaction di vi ii pi p.1 p.2)
        (lines.drop 1).enum = .ok ys) := by
  cases h : mapExcept
      (fun (p : Nat × String) => mkCsvTransaction di vi ii pi p.1 p.2)
      (lines.drop 1).enum with
  | error e =>
    simp only [parseCsvBody, h]
    simp
  | ok ts =>
    simp only [parseCsvBody, h]
    simp

theorem parseCsvBody_error_exists (di vi ii pi : Nat) (lines : List String)
    (fn : String) (e : JsError) :
    parseCsvBody di vi ii pi lines fn = .error e ↔
      mapExcept (fun (p : Nat × String) => mkCsvTransaction di vi ii pi p.1 p.2)
        (lines.drop 1).enum = .error e := by
  cases h : mapExcept
      (fun (p : Nat × String) => mkCsvTransaction di vi ii pi p.1 p.2)
      (lines.drop 1).enum with
  | error e2 =>
    simp only [parseCsvBody, h]
    simp
  | ok ts =>
    simp only [parseCsvBody, h]
    simp

/-- `parseCsvBody` succeeds exactly when every data row has the three
required cells. -/
theorem parseCsvBody_ok_iff (di vi ii pi : Nat) (lines : List String)
    (fn : String) :
    (∃ r, parseCsvBody di vi ii pi lines fn = .ok r) ↔
      ∀ line ∈ lines.drop 1, requiredCells di vi pi line := by
  rw [parseCsvBody_ok_exists,
    (mapExcept_characterize (mkCsvTransaction_dichotomy di vi ii pi)
      (lines.drop 1).enum).1]
  rw [show (∀ p ∈ (lines.drop 1).enum,
        ∃ y, mkCsvTransaction di vi ii pi p.1 p.2 = .ok y) ↔
      (∀ p ∈ (lines.drop 1).enum, requiredCells di vi pi p.2) from
    forall_congr' fun p => imp_congr_right fun _ =>
      mkCsvTransaction_ok_iff di vi ii pi p.1 p.2]
  exact enum_forall_snd _ _

/-- `parseCsvBody` raises `typeError` exactly when some data row lacks a
required cell. -/
theorem parseCsvBody_typeError_iff (di vi ii pi : Nat) (lines : List String)
    (fn : String) :
    parseCsvBody di vi ii pi lines fn = .error JsError.typeError ↔
      ∃ line ∈ lines.drop 1, ¬requiredCells di vi pi line := by
  rw [parseCsvBody_error_exists,
    (mapExcept_characterize (mkCsvTransaction_dichotomy di vi ii pi)
      (lines.drop 1).enum).2.1]
  rw [show (∃ p ∈ (lines.drop 1).enum,
        mkCsvTransaction di vi ii pi p.1 p.2 = .error JsError.typeError) ↔
      (∃ p ∈ (lines.drop 1).enum, ¬requiredCells di vi pi p.2) from
    exists_congr fun p => and_congr_right fun _ =>
      mkCsvTransaction_typeError_iff di vi ii pi p.1 p.2]
  exact enum_exists_snd (fun line => ¬requiredCells di vi pi line) _

/-- `parseCsvBody` errors are always `typeError`. -/
theorem parseCsvBody_error_eq (di vi ii pi : Nat) (lines : List String)
    (fn : String) (e : JsError)
    (h : parseCsvBody di vi ii pi lines fn = .error e) :
    e = JsError.typeError :=
  (mapExcept_characterize (mkCsvTransaction_dichotomy di vi ii pi)
    (lines.drop 1).enum).2.2 e ((parseCsvBody_error_exists _ _ _ _ _ _ _).mp h)

/-- Every transaction of a successful `parseCsvBody` comes from a row. -/
theorem parseCsvBody_ok_mem {di vi ii pi : Nat} {lines : List String}
    {fn : String} {r : ParsedExtract}
    (h : parseCsvBody di vi ii pi lines fn = .ok r) {tx : ParsedTransaction}
    (htx : tx ∈ r.transactions) :
    ∃ idx line, mkCsvTransaction di vi ii pi idx line = .ok tx := by
  cases hmt : mapExcept
      (fun (p : Nat × String) => mkCsvTransaction di vi ii pi p.1 p.2)
      (lines.drop 1).enum with
  | error e =>
    simp only [parseCsvBody, hmt] at h
    cases h
  | ok ts =>
    simp only [parseCsvBody, hmt] at h
    injection h with h
    rw [← h] at htx
    obtain ⟨p, _, hfp⟩ := mapExcept_ok_mem hmt htx
    exact ⟨p.1, p.2, hfp⟩

/-- With at least two lines and all four header columns found,
`parseCsv` reduces to `parseCsvBody`. -/
theorem parseCsv_eq_body {text fn : String} {di vi ii pi : Nat}
    (hlen : ¬(csvLines text).length < 2)
    (hdi : (csvHeader ((csvLines text)[0]?.getD "")).findIdx?
      (fun h => h = "data") = some di)
    (hvi : (csvHeader ((csvLines text)[0]?.getD "")).findIdx?
      (fun h => h = "valor") = some vi)
    (hii : (csvHeader ((csvLines text)[0]?.getD "")).findIdx?
      (fun h => h = "identificador") = some ii)
    (hpi : (csvHeader ((csvLines text)[0]?.getD "")).findIdx?
      (fun h => startsWithStr h "descri") = some pi) :
    parseCsv text fn = parseCsvBody di vi ii pi (csvLines text) fn := by
  simp [parseCsv, hlen, hdi, hvi, hii, hpi]

/-- With at least two lines and some required column missing,
`parseCsv` raises the header error. -/
theorem parseCsv_header_error {text fn : String}
    (hlen : ¬(csvLines text).length < 2)
    (hnone : (csvHeader ((csvLines text)[0]?.getD "")).findIdx?
        (fun h => h = "data") = none ∨
      (csvHeader ((csvLines text)[0]?.getD "")).findIdx?
        (fun h => h = "valor") = none ∨
      (csvHeader ((csvLines text)[0]?.getD "")).findIdx?
        (fun h => h = "identificador") = none ∨
      (csvHeader ((csvLines text)[0]?.getD "")).findIdx?
        (fun h => startsWithStr h "descri") = none) :
    parseCsv text fn =
      .error (.thrown "Cabecalho do CSV invalido ou fora do padrao esperado.") := by
  simp only [parseCsv, if_neg hlen]
  split
  · rcases hnone with h | h | h | h <;> simp_all
  · rfl

/-- Every transaction of a successful `parseCsv` comes from a row
conversion. -/
theorem parseCsv_ok_mem {text fn : String} {r : ParsedExtract}
    (h : parseCsv text fn = .ok r) {tx : ParsedTransaction}
    (htx : tx ∈ r.transactions) :
    ∃ di vi ii pi idx line, mkCsvTransaction di vi ii pi idx line = .ok tx := by
  simp only [parseCsv] at h
  split at h
  · cases h
  · split at h
    · obtain ⟨idx, line, hmk⟩ := parseCsvBody_ok_mem h htx
      exact ⟨_, _, _, _, idx, line, hmk⟩
    · cases h

end Helpers

/-- **C1.** `normalizeAmount` is a pure function satisfying the five
sample equalities, and in general: after stripping whitespace, when both
`,` and `.` occur the separator occurring later in the string is the
decimal point and the other is removed as a grouping mark; when only `,`
occurs it is the decimal point; otherwise `.` is the decimal point and
stray commas are stripped. -/
theorem normalizeAmount_spec :
    (normalizeAmount "1.234,56" = JsNum.finite (1234.56 : ℚ) ∧
      normalizeAmount "1,234.56" = JsNum.finite (1234.56 : ℚ) ∧
      normalizeAmount "1234,56" = JsNum.finite (1234.56 : ℚ) ∧
      normalizeAmount "1234.56" = JsNum.finite (1234.56 : ℚ) ∧
      normalizeAmount "-50,00" = JsNum.finite (-50.00 : ℚ)) ∧
    ∀ value : String,
      ((stripWhitespaceAll value).contains ',' = true →
        (stripWhitespaceAll value).contains '.' = true →
        jsLastIndexOf (stripWhitespaceAll value) ',' >
          jsLastIndexOf (stripWhitespaceAll value) '.' →
        normalizeAmount value = jsNumber (String.mk
          (replaceFirstChar (removeAllChar (stripWhitespaceAll value) '.') ',' '.'))) ∧
      ((stripWhitespaceAll value).contains ',' = true →
        (stripWhitespaceAll value).contains '.' = true →
        jsLastIndexOf (stripWhitespaceAll value) ',' ≤
          jsLastIndexOf (stripWhitespaceAll value) '.' →
        normalizeAmount value = jsNumber (String.mk
          (removeAllChar (stripWhitespaceAll value) ','))) ∧
      ((stripWhitespaceAll value).contains ',' = true →
        (stripWhitespaceAll value).contains '.' = false →
        normalizeAmount value = jsNumber (String.mk
          (replaceFirstChar (removeAllChar (stripWhitespaceAll value) '.') ',' '.'))) ∧
      ((stripWhitespaceAll value).contains ',' = false →
        normalizeAmount value = jsNumber (String.mk
          (removeAllChar (stripWhitespaceAll value) ','))) := by
  constructor
  · refine ⟨?_, ?_, ?_, ?_, ?_⟩
    · have h : normalizeAmount "1.234,56" = JsNum.finite (Rat.divInt 123456 100) := by
        decide
      rw [h]; norm_num [Rat.divInt_eq_div]
    · have h : normalizeAmount "1,234.56" = JsNum.finite (Rat.divInt 123456 100) := by
        decide
      rw [h]; norm_num [Rat.divInt_eq_div]
    · have h : normalizeAmount "1234,56" = JsNum.finite (Rat.divInt 123456 100) := by
        decide
      rw [h]; norm_num [Rat.divInt_eq_div]
    · have h : normalizeAmount "1234.56" = JsNum.finite (Rat.divInt 123456 100) := by
        decide
      rw [h]; norm_num [Rat.divInt_eq_div]
    · have h : normalizeAmount "-50,00" = JsNum.finite (Rat.divInt (-5000) 100) := by
        decide
      rw [h]; norm_num [Rat.divInt_eq_div]
  · intro value
    refine ⟨fun h1 h2 h3 => ?_, fun h1 h2 h3 => ?_, fun h1 h2 => ?_,
      fun h1 => ?_⟩
    · have m1 : ',' ∈ stripWhitespaceAll value := by simpa using h1
      have m2 : '.' ∈ stripWhitespaceAll value := by simpa using h2
      simp [normalizeAmount, m1, m2, h3]
    · have m1 : ',' ∈ stripWhitespaceAll value := by simpa using h1
      have m2 : '.' ∈ stripWhitespaceAll value := by simpa using h2
      have h3' : ¬(jsLastIndexOf (stripWhitespaceAll value) ',' >
          jsLastIndexOf (stripWhitespaceAll value) '.') := not_lt.mpr h3
      simp [normalizeAmount, m1, m2, h3']
    · have m1 : ',' ∈ stripWhitespaceAll value := by simpa using h1
      have m2 : '.' ∉ stripWhitespaceAll value := by simpa using h2
      simp [normalizeAmount, m1, m2]
    · have m1 : ',' ∉ stripWhitespaceAll value := by simpa using h1
      simp [normalizeAmount, m1]

theorem normalizeAmount_spec_witness :
    normalizeAmount "1234,56" = jsNumber (String.mk
      (replaceFirstChar (removeAllChar (stripWhitespaceAll "1234,56") '.') ',' '.')) :=
  (normalizeAmount_spec.2 "1234,56").2.2.1 (by decide) (by decide)

/-- **C4.** Payment-method inference normalizes the description with
`normalizeText` (lowercase, diacritics stripped) and tests substrings in
the fixed priority order pix, boleto, credito, debito, cheque,
dinheiro/saque, with OUTROS (OTHER) when none matches: the earliest
matching keyword in this order determines the result. -/
theorem inferPaymentMethod_spec : ∀ description : String,
    (jsIncludes (normalizeText description) "pix" = true →
      inferPaymentMethod description = .PIX) ∧
    (jsIncludes (normalizeText description) "pix" = false →
      jsIncludes (normalizeText description) "boleto" = true →
      inferPaymentMethod description = .BOLETO) ∧
    (jsIncludes (normalizeText description) "pix" = false →
      jsIncludes (normalizeText description) "boleto" = false →
      jsIncludes (normalizeText description) "credito" = true →
      inferPaymentMethod description = .CARTAO_CREDITO) ∧
    (jsIncludes (normalizeText description) "pix" = false →
      jsIncludes (normalizeText description) "boleto" = false →
      jsIncludes (normalizeText description) "credito" = false →
      jsIncludes (normalizeText description) "debito" = true →
      inferPaymentMethod description = .CARTAO_DEBITO) ∧
    (jsIncludes (normalizeText description) "pix" = false →
      jsIncludes (normalizeText description) "boleto" = false →
      jsIncludes (normalizeText description) "credito" = false →
      jsIncludes (normalizeText description) "debito" = false →
      jsIncludes (normalizeText description) "cheque" = true →
      inferPaymentMethod description = .CHEQUE) ∧
    (jsIncludes (normalizeText description) "pix" = false →
      jsIncludes (normalizeText description) "boleto" = false →
      jsIncludes (normalizeText description) "credito" = false →
      jsIncludes (normalizeText description) "debito" = false →
      jsIncludes (normalizeText description) "cheque" = false →
      (jsIncludes (normalizeText description) "dinheiro" = true ∨
        jsIncludes (normalizeText description) "saque" = true) →
      inferPaymentMethod description = .DINHEIRO) ∧
    (jsIncludes (normalizeText description) "pix" = false →
      jsIncludes (normalizeText description) "boleto" = false →
      jsIncludes (normalizeText description) "credito" = false →
      jsIncludes (normalizeText description) "debito" = false →
      jsIncludes (normalizeText description) "cheque" = false →
      jsIncludes (normalizeText description) "dinheiro" = false →
      jsIncludes (normalizeText description) "saque" = false →
      inferPaymentMethod description = .OUTROS) := by
  intro description
  refine ⟨fun h1 => ?_, fun h1 h2 => ?_, fun h1 h2 h3 => ?_,
    fun h1 h2 h3 h4 => ?_, fun h1 h2 h3 h4 h5 => ?_,
    fun h1 h2 h3 h4 h5 h6 => ?_, fun h1 h2 h3 h4 h5 h6 h7 => ?_⟩
  · simp [inferPaymentMethod, h1]
  · simp [inferPaymentMethod, h1, h2]
  · simp [inferPaymentMethod, h1, h2, h3]
  · simp [inferPaymentMethod, h1, h2, h3, h4]
  · simp [inferPaymentMethod, h1, h2, h3, h4, h5]
  · rcases h6 with h6 | h6 <;> simp [inferPaymentMethod, h1, h2, h3, h4, h5, h6]
  · simp [inferPaymentMethod, h1, h2, h3, h4, h5, h6, h7]

theorem inferPaymentMethod_spec_witness :
    inferPaymentMethod "Saque com cartao de credito" =
      PaymentMethod.CARTAO_CREDITO :=
  (inferPaymentMethod_spec "Saque com cartao de credito").2.2.1
    (by decide) (by decide) (by decide)

/-- **C9.** Parsing is deterministic: the import core is a pure function
of the file name, declared content type and (decoded) bytes, so running
it twice on identical input yields structurally identical output. -/
theorem importExtract_deterministic :
    ∀ name1 type1 content1 name2 type2 content2 : String,
      name1 = name2 → type1 = type2 → content1 = content2 →
      importExtract name1 type1 content1 = importExtract name2 type2 content2 := by
  intro n1 t1 c1 n2 t2 c2 hn ht hc
  rw [hn, ht, hc]

theorem importExtract_deterministic_witness :
    importExtract "extrato.csv" "text/csv"
        "data,valor,identificador,descricao\n05/03/2024,1500.00,ABC123,PIX" =
      importExtract "extrato.csv" "text/csv"
        "data,valor,identificador,descricao\n05/03/2024,1500.00,ABC123,PIX" :=
  importExtract_deterministic _ _ _ _ _ _ rfl rfl rfl

/-- **C10.** A CSV input with a valid header but a data row with fewer
comma-separated cells than the index of a required column makes
`parseCsv` raise a runtime `TypeError` (a string method is called on an
undefined cell), not one of the two documented structural errors and not
a result with sentinel values: here the row `01/02/2024` has no cell at
the `valor` index 1. -/
theorem parseCsv_missing_cell_typeError :
    parseCsv "data,valor,identificador,descricao\n01/02/2024" "extrato.csv" =
      .error JsError.typeError ∧
    decide (JsError.typeError =
      JsError.thrown "Arquivo CSV sem conteudo suficiente.") = false ∧
    decide (JsError.typeError =
      JsError.thrown "Cabecalho do CSV invalido ou fora do padrao esperado.") =
      false := by
  refine ⟨by decide, by decide, by decide⟩

/-- **C3.** Format detection, in order with first match winning:
`.csv`/`.ofx` extension; then declared content type containing
csv/ofx/pdf (or a `.pdf` extension); then a 32-byte sniff for an
`OFXHEADER` prefix or a comma together with the word `data`; otherwise
unsupported (`none`).  In particular `extrato.csv` with declared type
`application/ofx` is detected as csv. -/
theorem detectFormat_spec :
    (∀ name ct content, normalizeExtension name = ".csv" →
      detectFormat name ct content = some FileFormat.csv) ∧
    (∀ name ct content, normalizeExtension name = ".ofx" →
      detectFormat name ct content = some FileFormat.ofx) ∧
    (∀ name ct content, normalizeExtension name ≠ ".csv" →
      normalizeExtension name ≠ ".ofx" →
      jsIncludes (String.mk (ct.toList.map jsToLower)) "csv" = true →
      detectFormat name ct content = some FileFormat.csv) ∧
    (∀ name ct content, normalizeExtension name ≠ ".csv" →
      normalizeExtension name ≠ ".ofx" →
      jsIncludes (String.mk (ct.toList.map jsToLower)) "csv" = false →
      jsIncludes (String.mk (ct.toList.map jsToLower)) "ofx" = true →
      detectFormat name ct content = some FileFormat.ofx) ∧
    (∀ name ct content, normalizeExtension name ≠ ".csv" →
      normalizeExtension name ≠ ".ofx" →
      jsIncludes (String.mk (ct.toList.map jsToLower)) "csv" = false →
      jsIncludes (String.mk (ct.toList.map jsToLower)) "ofx" = false →
      (jsIncludes (String.mk (ct.toList.map jsToLower)) "pdf" = true ∨
        normalizeExtension name = ".pdf") →
      detectFormat name ct content = some FileFormat.pdf) ∧
    (∀ name ct content, normalizeExtension name ≠ ".csv" →
      normalizeExtension name ≠ ".ofx" →
      jsIncludes (String.mk (ct.toList.map jsToLower)) "csv" = false →
      jsIncludes (String.mk (ct.toList.map jsToLower)) "ofx" = false →
      jsIncludes (String.mk (ct.toList.map jsToLower)) "pdf" = false →
      normalizeExtension name ≠ ".pdf" →
      "OFXHEADER".toList.isPrefixOf
        (((content.toList.take 32).dropWhile jsIsSpace).map jsToUpper) = true →
      detectFormat name ct content = some FileFormat.ofx) ∧
    (∀ name ct content, normalizeExtension name ≠ ".csv" →
      normalizeExtension name ≠ ".ofx" →
      jsIncludes (String.mk (ct.toList.map jsToLower)) "csv" = false →
      jsIncludes (String.mk (ct.toList.map jsToLower)) "ofx" = false →
      jsIncludes (String.mk (ct.toList.map jsToLower)) "pdf" = false →
      normalizeExtension name ≠ ".pdf" →
      "OFXHEADER".toList.isPrefixOf
        (((content.toList.take 32).dropWhile jsIsSpace).map jsToUpper) = false →
      (content.toList.take 32).contains ',' = true →
      jsIncludesL "data".toList ((content.toList.take 32).map jsToLower) = true →
      detectFormat name ct content = some FileFormat.csv) ∧
    (∀ name ct content, normalizeExtension name ≠ ".csv" →
      normalizeExtension name ≠ ".ofx" →
      jsIncludes (String.mk (ct.toList.map jsToLower)) "csv" = false →
      jsIncludes (String.mk (ct.toList.map jsToLower)) "ofx" = false →
      jsIncludes (String.mk (ct.toList.map jsToLower)) "pdf" = false →
      normalizeExtension name ≠ ".pdf" →
      "OFXHEADER".toList.isPrefixOf
        (((content.toList.take 32).dropWhile jsIsSpace).map jsToUpper) = false →
      ((content.toList.take 32).contains ',' = false ∨
        jsIncludesL "data".toList ((content.toList.take 32).map jsToLower) = false) →
      detectFormat name ct content = none) ∧
    (∀ content, detectFormat "extrato.csv" "application/ofx" content =
      some FileFormat.csv) := by
  refine ⟨fun n t c h1 => ?_, fun n t c h1 => ?_,
    fun n t c h1 h2 h3 => ?_, fun n t c h1 h2 h3 h4 => ?_,
    fun n t c h1 h2 h3 h4 h5 => ?_, fun n t c h1 h2 h3 h4 h5 h6 h7 => ?_,
    fun n t c h1 h2 h3 h4 h5 h6 h7 h8 h9 => ?_,
    fun n t c h1 h2 h3 h4 h5 h6 h7 h8 => ?_, fun c => ?_⟩
  · simp_all [detectFormat]
  · simp_all [detectFormat]
  · simp_all [detectFormat]
  · simp_all [detectFormat]
  · rcases h5 with h5 | h5 <;> simp_all [detectFormat]
  · simp_all [detectFormat]
  · simp_all [detectFormat]
  · rcases h8 with h8 | h8 <;> simp_all [detectFormat]
  · have h1 : normalizeExtension "extrato.csv" = ".csv" := by decide
    simp [detectFormat, h1]

theorem detectFormat_spec_witness :
    detectFormat "relatorio.OFX" "application/json" "qualquer" =
      some FileFormat.ofx :=
  detectFormat_spec.2.1 "relatorio.OFX" "application/json" "qualquer" (by decide)

/-- **C6.** Counterpart extraction: after stripping obfuscation marks
and normalizing whitespace, split on `" - "`; among the non-empty
trimmed parts return the first at index above 0 that has a letter and no
`###.###` pattern, cleaned of non-letter/space/apostrophe/period/hyphen
characters; with no qualifying part fall back to the part at index 1
when there are at least two parts; with at most one part fall back to
the first 80 characters of the cleaned description, or the literal
`"Nao identificado"` marker when that is empty. -/
theorem extractCounterpart_spec : ∀ description : String,
    (∀ i part,
      (counterpartParts (stripObfuscation
        (normalizeWhitespaces description))).enum.find? counterpartQualifies =
          some (i, part) →
      extractCounterpart description = cleanSelected part) ∧
    ((counterpartParts (stripObfuscation
        (normalizeWhitespaces description))).enum.find? counterpartQualifies =
          none →
      1 < (counterpartParts (stripObfuscation
        (normalizeWhitespaces description))).length →
      extractCounterpart description = cleanSelected
        ((counterpartParts (stripObfuscation
          (normalizeWhitespaces description)))[1]?.getD "")) ∧
    ((counterpartParts (stripObfuscation
        (normalizeWhitespaces description))).enum.find? counterpartQualifies =
          none →
      (counterpartParts (stripObfuscation
        (normalizeWhitespaces description))).length ≤ 1 →
      String.mk ((stripObfuscation
        (normalizeWhitespaces description)).toList.take 80) ≠ "" →
      extractCounterpart description = String.mk ((stripObfuscation
        (normalizeWhitespaces description)).toList.take 80)) ∧
    ((counterpartParts (stripObfuscation
        (normalizeWhitespaces description))).enum.find? counterpartQualifies =
          none →
      (counterpartParts (stripObfuscation
        (normalizeWhitespaces description))).length ≤ 1 →
      String.mk ((stripObfuscation
        (normalizeWhitespaces description)).toList.take 80) = "" →
      extractCounterpart description = "Nao identificado") := by
  intro description
  refine ⟨fun i part h => ?_, fun h h2 => ?_, fun h h2 h3 => ?_,
    fun h h2 h3 => ?_⟩
  · simp [extractCounterpart, h]
  · simp [extractCounterpart, h, h2]
  · have h2' : ¬(1 < (counterpartParts (stripObfuscation
        (normalizeWhitespaces description))).length) := not_lt.mpr h2
    simp only [String.toList] at h3
    simp [extractCounterpart, h, h2', h3]
  · have h2' : ¬(1 < (counterpartParts (stripObfuscation
        (normalizeWhitespaces description))).length) := not_lt.mpr h2
    simp only [String.toList] at h3
    simp [extractCounterpart, h, h2', h3]

theorem extractCounterpart_spec_witness :
    extractCounterpart "PIX RECEBIDO - Joao Silva - 123.456" =
      cleanSelected "Joao Silva" :=
  (extractCounterpart_spec "PIX RECEBIDO - Joao Silva - 123.456").1 1
    "Joao Silva" (by decide)

/-- **C7.** `parseOfx` raises a fatal error exactly when the input has
no `BANKTRANLIST` section or zero `STMTTRN` blocks are extracted from
it; a success always carries a non-empty transaction list, and the
`Except` result shape carries no partial list with a failure. -/
theorem parseOfx_failure_spec : ∀ text fn : String,
    ((∃ e, parseOfx text fn = .error e) ↔
      (ofxTranSection text = none ∨
        ∃ inner, ofxTranSection text = some inner ∧ extractBlocks inner = [])) ∧
    (∀ r, parseOfx text fn = .ok r → r.transactions ≠ []) := by
  intro text fn
  constructor
  · cases hsec : ofxTranSection text with
    | none =>
      exact ⟨fun _ => Or.inl rfl,
        fun _ => ⟨.thrown "Arquivo OFX invalido: transacoes nao encontradas.",
          by simp [parseOfx, hsec]⟩⟩
    | some inner =>
      by_cases hemp : extractBlocks inner = []
      · exact ⟨fun _ => Or.inr ⟨inner, rfl, hemp⟩,
          fun _ => ⟨.thrown "Nenhuma transacao encontrada no arquivo OFX.",
            by simp [parseOfx, hsec, hemp]⟩⟩
      · constructor
        · rintro ⟨e, he⟩
          simp only [parseOfx, hsec] at he
          split at he
          · rename_i hie
            rw [List.isEmpty_iff, List.map_eq_nil_iff] at hie
            exact absurd hie hemp
          · cases he
        · rintro (h | ⟨inner2, hi2, hemp2⟩)
          · cases h
          · injection hi2 with hi2
            exact absurd (hi2 ▸ hemp2) hemp
  · intro r hr
    obtain ⟨inner, hsec, htr⟩ := parseOfx_ok_shape hr
    simp only [parseOfx, hsec] at hr
    split at hr
    · cases hr
    · rename_i hie
      rw [List.isEmpty_iff] at hie
      injection hr with hr
      rw [← hr]
      exact hie

theorem parseOfx_failure_spec_witness :
    ∃ e, parseOfx "<BANKTRANLIST>vazio</BANKTRANLIST>" "f.ofx" =
      Except.error e :=
  (parseOfx_failure_spec "<BANKTRANLIST>vazio</BANKTRANLIST>" "f.ofx").1.mpr
    (Or.inr ⟨"vazio".toList, by decide, by decide⟩)

/-- **C2 counterexample.** The CSV date path emits the field-reordered
raw cell without validation: the row date `aa/bb/cccc` yields the date
`cccc-bb-aa`, which is neither ISO-shaped nor empty. -/
theorem parsed_date_counterexample :
    ((parseCsv "data,valor,identificador,descricao\naa/bb/cccc,10,id1,desc"
        "f").toOption.map fun r => r.transactions.map (·.date)) =
      some ["cccc-bb-aa"] ∧
    isIsoDate "cccc-bb-aa" = false ∧ decide ("cccc-bb-aa" = "") = false := by
  refine ⟨by decide, by decide, by decide⟩

/-- **C2 (amended).** Every OFX transaction date is ISO `YYYY-MM-DD`
shaped or empty; every CSV transaction date is the unvalidated
`year-month-day` reordering of the raw cell split on `/` (so for a
malformed cell it need not be ISO-shaped or empty). -/
theorem parsed_date_spec : ∀ (text fn : String) (r : ParsedExtract),
    (parseOfx text fn = .ok r →
      ∀ tx ∈ r.transactions, isIsoDate tx.date = true ∨ tx.date = "") ∧
    (parseCsv text fn = .ok r →
      ∀ tx ∈ r.transactions, ∃ rawDate, tx.date = csvIsoDate rawDate) := by
  intro text fn r
  constructor
  · intro h tx htx
    obtain ⟨inner, _, htr⟩ := parseOfx_ok_shape h
    rw [htr] at htx
    obtain ⟨block, _, rfl⟩ := List.mem_map.mp htx
    rw [mkOfxTransaction_date block]
    exact ofxIsoDate_shape _
  · intro h tx htx
    obtain ⟨di, vi, ii, pi, idx, line, hmk⟩ := parseCsv_ok_mem h htx
    obtain ⟨rd, ar, dr, _, _, _, hdate, _, _⟩ := mkCsvTransaction_ok hmk
    exact ⟨rd, hdate⟩

theorem parsed_date_spec_witness :
    isIsoDate sampleOfxTx.date = true ∨ sampleOfxTx.date = "" :=
  (parsed_date_spec sampleOfxText "f.ofx" sampleOfxExtract).1 (by decide)
    sampleOfxTx (by decide)

/-- **C5 counterexample.** A CSV row with amount cell `abc` produces a
NaN amount with movement EXPENSE, yet NaN is not `< 0` in JavaScript:
EXPENSE is not produced exactly on negative amounts. -/
theorem movement_nan_counterexample :
    ((parseCsv "data,valor,identificador,descricao\n01/02/2024,abc,id,PAGAMENTO"
        "f").toOption.map fun r =>
      r.transactions.map fun tx => (tx.movement, tx.amount)) =
      some [(MovementCategory.DESPESA, JsNum.nan)] ∧
    jsLt0 JsNum.nan = false := by
  refine ⟨by decide, by decide⟩

/-- **C5 (amended).** For every transaction either parser produces, the
movement is INCOME (RECEITA) exactly when the JavaScript test
`amount >= 0` holds and EXPENSE (DESPESA) exactly otherwise (so a NaN
amount also yields EXPENSE); PURCHASE (COMPRA) and WITHDRAWAL (RETIRADA)
are never produced. -/
theorem movement_spec : ∀ (text fn : String) (r : ParsedExtract),
    (parseCsv text fn = .ok r ∨ parseOfx text fn = .ok r) →
    ∀ tx ∈ r.transactions,
      (tx.movement = MovementCategory.RECEITA ↔ jsGe0 tx.amount = true) ∧
      (tx.movement = MovementCategory.DESPESA ↔ jsGe0 tx.amount = false) ∧
      tx.movement ≠ MovementCategory.COMPRA ∧
      tx.movement ≠ MovementCategory.RETIRADA := by
  have key : ∀ tx : ParsedTransaction,
      tx.movement =
        (if jsGe0 tx.amount then MovementCategory.RECEITA
          else MovementCategory.DESPESA) →
      (tx.movement = MovementCategory.RECEITA ↔ jsGe0 tx.amount = true) ∧
      (tx.movement = MovementCategory.DESPESA ↔ jsGe0 tx.amount = false) ∧
      tx.movement ≠ MovementCategory.COMPRA ∧
      tx.movement ≠ MovementCategory.RETIRADA := by
    intro tx h
    cases hj : jsGe0 tx.amount <;> rw [hj] at h <;> simp at h <;> simp [h, hj]
  intro text fn r hsrc tx htx
  rcases hsrc with hcsv | hofx
  · obtain ⟨di, vi, ii, pi, idx, line, hmk⟩ := parseCsv_ok_mem hcsv htx
    obtain ⟨rd, ar, dr, _, _, _, _, hamt, hmov⟩ := mkCsvTransaction_ok hmk
    exact key tx (by rw [hmov, hamt])
  · obtain ⟨inner, _, htr⟩ := parseOfx_ok_shape hofx
    rw [htr] at htx
    obtain ⟨block, _, rfl⟩ := List.mem_map.mp htx
    exact key _ (mkOfxTransaction_movement block)

theorem movement_spec_witness :
    (sampleCsvTx.movement = MovementCategory.RECEITA ↔
      jsGe0 sampleCsvTx.amount = true) ∧
    (sampleCsvTx.movement = MovementCategory.DESPESA ↔
      jsGe0 sampleCsvTx.amount = false) ∧
    sampleCsvTx.movement ≠ MovementCategory.COMPRA ∧
    sampleCsvTx.movement ≠ MovementCategory.RETIRADA :=
  movement_spec sampleCsvText "f" sampleCsvExtract (Or.inl (by decide))
    sampleCsvTx (by decide)

/-- **C8 counterexample.** The input below has two non-empty lines and
all four required header columns, yet `parseCsv` raises a runtime
`TypeError` instead of yielding a full result: the claim that every
input outside the two structural failure conditions yields a full
result is false. -/
theorem parseCsv_total_counterexample :
    parseCsv "data,valor,identificador,descricao\nx" "extrato.csv" =
      .error JsError.typeError ∧
    (csvLines "data,valor,identificador,descricao\nx").length = 2 ∧
    (csvHeader ((csvLines "data,valor,identificador,descricao\nx")[0]?.getD
        "")).findIdx? (fun h => h = "data") = some 0 ∧
    (csvHeader ((csvLines "data,valor,identificador,descricao\nx")[0]?.getD
        "")).findIdx? (fun h => h = "valor") = some 1 ∧
    (csvHeader ((csvLines "data,valor,identificador,descricao\nx")[0]?.getD
        "")).findIdx? (fun h => h = "identificador") = some 2 ∧
    (csvHeader ((csvLines "data,valor,identificador,descricao\nx")[0]?.getD
        "")).findIdx? (fun h => startsWithStr h "descri") = some 3 := by
  refine ⟨by decide, by decide, by decide, by decide, by decide, by decide⟩

/-- **C8 (amended).** `parseCsv` raises the insufficient-content error
exactly when fewer than 2 non-empty trimmed lines remain, and the
invalid-header error exactly when there are at least 2 lines and one of
the four required columns is missing; with at least 2 lines and all
columns found, it returns a full result exactly when every data row has
cells at the date, amount and description indices, and otherwise raises
a runtime `TypeError` (not a documented structural error). -/
theorem parseCsv_failure_spec : ∀ text fn : String,
    (parseCsv text fn = .error (.thrown "Arquivo CSV sem conteudo suficiente.")
      ↔ (csvLines text).length < 2) ∧
    (parseCsv text fn =
        .error (.thrown "Cabecalho do CSV invalido ou fora do padrao esperado.")
      ↔ (2 ≤ (csvLines text).length ∧
        ((csvHeader ((csvLines text)[0]?.getD "")).findIdx?
            (fun h => h = "data") = none ∨
          (csvHeader ((csvLines text)[0]?.getD "")).findIdx?
            (fun h => h = "valor") = none ∨
          (csvHeader ((csvLines text)[0]?.getD "")).findIdx?
            (fun h => h = "identificador") = none ∨
          (csvHeader ((csvLines text)[0]?.getD "")).findIdx?
            (fun h => startsWithStr h "descri") = none))) ∧
    (∀ di vi ii pi : Nat,
      2 ≤ (csvLines text).length →
      (csvHeader ((csvLines text)[0]?.getD "")).findIdx?
        (fun h => h = "data") = some di →
      (csvHeader ((csvLines text)[0]?.getD "")).findIdx?
        (fun h => h = "valor") = some vi →
      (csvHeader ((csvLines text)[0]?.getD "")).findIdx?
        (fun h => h = "identificador") = some ii →
      (csvHeader ((csvLines text)[0]?.getD "")).findIdx?
        (fun h => startsWithStr h "descri") = some pi →
      (((∃ r, parseCsv text fn = .ok r) ↔
          ∀ line ∈ (csvLines text).drop 1, requiredCells di vi pi line) ∧
        (parseCsv text fn = .error JsError.typeError ↔
          ∃ line ∈ (csvLines text).drop 1, ¬requiredCells di vi pi line))) := by
  intro text fn
  by_cases hlen : (csvLines text).length < 2
  · have hp : parseCsv text fn =
        .error (.thrown "Arquivo CSV sem conteudo suficiente.") := by
      simp [parseCsv, hlen]
    refine ⟨⟨fun _ => hlen, fun _ => hp⟩, ?_, ?_⟩
    · constructor
      · intro hq
        rw [hp] at hq
        simp at hq
      · rintro ⟨hq2, _⟩
        omega
    · intro di vi ii pi hq2
      exact absurd hq2 (by omega)
  · have h2 : 2 ≤ (csvLines text).length := not_lt.mp hlen
    have master :
        (parseCsv text fn =
            .error (.thrown "Cabecalho do CSV invalido ou fora do padrao esperado.") ∧
          ((csvHeader ((csvLines text)[0]?.getD "")).findIdx?
              (fun h => h = "data") = none ∨
            (csvHeader ((csvLines text)[0]?.getD "")).findIdx?
              (fun h => h = "valor") = none ∨
            (csvHeader ((csvLines text)[0]?.getD "")).findIdx?
              (fun h => h = "identificador") = none ∨
            (csvHeader ((csvLines text)[0]?.getD "")).findIdx?
              (fun h => startsWithStr h "descri") = none)) ∨
        (∃ di vi ii pi : Nat,
          (csvHeader ((csvLines text)[0]?.getD "")).findIdx?
            (fun h => h = "data") = some di ∧
          (csvHeader ((csvLines text)[0]?.getD "")).findIdx?
            (fun h => h = "valor") = some vi ∧
          (csvHeader ((csvLines text)[0]?.getD "")).findIdx?
            (fun h => h = "identificador") = some ii ∧
          (csvHeader ((csvLines text)[0]?.getD "")).findIdx?
            (fun h => startsWithStr h "descri") = some pi ∧
          parseCsv text fn = parseCsvBody di vi ii pi (csvLines text) fn) := by
      cases hdi : (csvHeader ((csvLines text)[0]?.getD "")).findIdx?
          (fun h => h = "data") with
      | none => exact Or.inl ⟨parseCsv_header_error hlen (Or.inl hdi), Or.inl rfl⟩
      | some di =>
        cases hvi : (csvHeader ((csvLines text)[0]?.getD "")).findIdx?
            (fun h => h = "valor") with
        | none =>
          exact Or.inl ⟨parseCsv_header_error hlen (Or.inr (Or.inl hvi)),
            Or.inr (Or.inl rfl)⟩
        | some vi =>
          cases hii : (csvHeader ((csvLines text)[0]?.getD "")).findIdx?
              (fun h => h = "identificador") with
          | none =>
            exact Or.inl ⟨parseCsv_header_error hlen (Or.inr (Or.inr (Or.inl hii))),
              Or.inr (Or.inr (Or.inl rfl))⟩
          | some ii =>
            cases hpi : (csvHeader ((csvLines text)[0]?.getD "")).findIdx?
                (fun h => startsWithStr h "descri") with
            | none =>
              exact Or.inl
                ⟨parseCsv_header_error hlen (Or.inr (Or.inr (Or.inr hpi))),
                  Or.inr (Or.inr (Or.inr rfl))⟩
            | some pi =>
              exact Or.inr ⟨di, vi, ii, pi, rfl, rfl, rfl, rfl,
                parseCsv_eq_body hlen hdi hvi hii hpi⟩
    rcases master with ⟨herr, hnone⟩ |
      ⟨di, vi, ii, pi, hdi, hvi, hii, hpi, hbody⟩
    · refine ⟨?_, ?_, ?_⟩
      · constructor
        · intro hq
          rw [herr] at hq
          simp at hq
        · intro hlt
          exact absurd hlt hlen
      · exact ⟨fun _ => ⟨h2, hnone⟩, fun _ => herr⟩
      · intro di vi ii pi _ hdi hvi hii hpi
        rcases hnone with h | h | h | h
        · rw [h] at hdi; cases hdi
        · rw [h] at hvi; cases hvi
        · rw [h] at hii; cases hii
        · rw [h] at hpi; cases hpi
    · have hneq1 : parseCsv text fn ≠
          .error (.thrown "Arquivo CSV sem conteudo suficiente.") := by
        rw [hbody]
        intro hq
        cases parseCsvBody_error_eq di vi ii pi (csvLines text) fn _ hq
      have hneq2 : parseCsv text fn ≠
          .error (.thrown "Cabecalho do CSV invalido ou fora do padrao esperado.") := by
        rw [hbody]
        intro hq
        cases parseCsvBody_error_eq di vi ii pi (csvLines text) fn _ hq
      refine ⟨⟨fun hq => absurd hq hneq1, fun hlt => absurd hlt hlen⟩,
        ⟨fun hq => absurd hq hneq2, ?_⟩, ?_⟩
      · rintro ⟨_, hnone⟩
        rcases hnone with h | h | h | h
        · rw [h] at hdi; cases hdi
        · rw [h] at hvi; cases hvi
        · rw [h] at hii; cases hii
        · rw [h] at hpi; cases hpi
      · intro di2 vi2 ii2 pi2 _ hdi2 hvi2 hii2 hpi2
        have edi : di2 = di := by
          rw [hdi] at hdi2; injection hdi2 with e; exact e.symm
        have evi : vi2 = vi := by
          rw [hvi] at hvi2; injection hvi2 with e; exact e.symm
        have eii : ii2 = ii := by
          rw [hii] at hii2; injection hii2 with e; exact e.symm
        have epi : pi2 = pi := by
          rw [hpi] at hpi2; injection hpi2 with e; exact e.symm
        rw [edi, evi, epi, hbody]
        exact ⟨parseCsvBody_ok_iff di vi ii pi (csvLines text) fn,
          parseCsvBody_typeError_iff di vi ii pi (csvLines text) fn⟩

theorem parseCsv_failure_spec_witness :
    parseCsv "so uma linha" "f" =
      .error (.thrown "Arquivo CSV sem conteudo suficiente.") :=
  (parseCsv_failure_spec "so uma linha" "f").1.mpr (by decide)

end ImportExtrato
